import Mathlib

/-!
Verification of the streaming response decoder and accumulator of the
`gemdni` client (src/main.rs).

The program consumes a stream of raw JSON values.  Each value is pushed
onto an in-memory transcript, then decoded by `parse_chunk` into either a
content chunk or a service-level error; chunk text is extracted and
accumulated; when the stream ends, `write_log` materializes a transcript
record.  The wire-model types and their decoding live in the external
`gemini` crate, which is not part of the provided sources; those decoders
are modelled from the spec below and are marked as such.
-/

namespace Gemdni

/-- A JSON value (numbers restricted to integers, which is all the wire
format in question uses: error codes and candidate indices). -/
inductive Json where
  | null : Json
  | bool : Bool → Json
  | num : Int → Json
  | str : String → Json
  | arr : List Json → Json
  | obj : List (String × Json) → Json

/-- Look up the first field with the given key in a JSON object's field list. -/
def getField : List (String × Json) → String → Option Json
  | [], _ => none
  | (k, v) :: rest, key => if k = key then some v else getField rest key

/-- The payload of a service-level error item: numeric code, message, status. -/
structure ErrorDetail where
  code : Int
  message : String
  status : String

/-- The `Error` wire shape: an object wrapping an `error` payload. -/
structure GenerateContentResponseError where
  error : ErrorDetail

/-- One fragment of content.  `Text` is the only variant this client
consumes; the type stays open to other variants via `Other`. -/
inductive Part where
  | Text : String → Part
  | Other : Json → Part

/-- The content of a candidate: optional role and an ordered list of parts. -/
structure Content where
  role : Option String
  parts : List Part

/-- A category/probability safety assessment, informational only. -/
structure SafetyRating where
  category : String
  probability : String

/-- One alternative generation output within a chunk. -/
structure Candidate where
  index : Int
  content : Option Content
  finishReason : Option String
  safetyRatings : List SafetyRating
  citationMetadata : Option Json

/-- One unit of the streamed generation response. -/
structure GenerateContentResponseChunk where
  candidates : List Candidate
  promptFeedback : Option Json

/-- The wire-level union: each raw item is a chunk or an error. -/
inductive GenerateContentResponse where
  | Chunk : GenerateContentResponseChunk → GenerateContentResponse
  | Error : GenerateContentResponseError → GenerateContentResponse

/-- Modelled from the spec: the `Error` shape decoder of the external
`gemini` crate (absent from the provided sources).  Succeeds on an object
containing an `error` object with numeric `code`, string `message` and
string `status`; other fields are ignored. -/
def decodeErrorShape (j : Json) : Option GenerateContentResponseError :=
  match j with
  | .obj fields =>
    match getField fields "error" with
    | some (.obj efields) =>
      match getField efields "code", getField efields "message",
            getField efields "status" with
      | some (.num c), some (.str m), some (.str s) => some ⟨⟨c, m, s⟩⟩
      | _, _, _ => none
    | _ => none
  | _ => none

/-- Modelled from the spec: decoding one part.  An object with a string
`text` field is the `Text` variant; anything else is another (unconsumed)
variant, kept open for forward compatibility. -/
def decodePart (j : Json) : Part :=
  match j with
  | .obj fields =>
    match getField fields "text" with
    | some (.str s) => .Text s
    | _ => .Other j
  | _ => .Other j

/-- Modelled from the spec: an optional string field — absent is fine,
present with a non-string value is a decode failure. -/
def decodeOptStringField (fields : List (String × Json)) (key : String) :
    Option (Option String) :=
  match getField fields key with
  | none => some none
  | some (.str r) => some (some r)
  | some _ => none

/-- Modelled from the spec: decoding a candidate's `content` object:
requires a `parts` array, with an optional `role` label. -/
def decodeContent (j : Json) : Option Content :=
  match j with
  | .obj fields =>
    match getField fields "parts", decodeOptStringField fields "role" with
    | some (.arr parts), some role => some ⟨role, parts.map decodePart⟩
    | _, _ => none
  | _ => none

/-- Modelled from the spec: decoding one safety rating. -/
def decodeSafetyRating (j : Json) : Option SafetyRating :=
  match j with
  | .obj fields =>
    match getField fields "category", getField fields "probability" with
    | some (.str c), some (.str p) => some ⟨c, p⟩
    | _, _ => none
  | _ => none

/-- Modelled from the spec: the optional `safetyRatings` array (absent
means empty). -/
def decodeSafetyRatings (fields : List (String × Json)) :
    Option (List SafetyRating) :=
  match getField fields "safetyRatings" with
  | none => some []
  | some (.arr xs) => xs.mapM decodeSafetyRating
  | some _ => none

/-- Modelled from the spec: decoding one candidate: a required numeric
`index`, optional `content`, optional string `finishReason`, optional
safety ratings, and `citationMetadata` passed through verbatim. -/
def decodeCandidate (j : Json) : Option Candidate :=
  match j with
  | .obj fields =>
    match getField fields "index" with
    | some (.num idx) =>
      (match getField fields "content" with
       | none => some none
       | some cj => (decodeContent cj).map some).bind fun content =>
      (decodeOptStringField fields "finishReason").bind fun fr =>
      (decodeSafetyRatings fields).bind fun ratings =>
      some ⟨idx, content, fr, ratings, getField fields "citationMetadata"⟩
    | _ => none
  | _ => none

/-- Modelled from the spec: the `Chunk` shape decoder: an object with a
`candidates` array (each entry decoding as a candidate) and an optional
`promptFeedback` passed through verbatim. -/
def decodeChunkShape (j : Json) : Option GenerateContentResponseChunk :=
  match j with
  | .obj fields =>
    match getField fields "candidates" with
    | some (.arr cands) =>
      (cands.mapM decodeCandidate).map fun cs =>
        ⟨cs, getField fields "promptFeedback"⟩
    | _ => none
  | _ => none

/-- Modelled from the spec: the union decoder tries the `Error` shape
first and falls back to the `Chunk` shape. -/
def decodeResponse (j : Json) : Option GenerateContentResponse :=
  match decodeErrorShape j with
  | some e => some (.Error e)
  | none => (decodeChunkShape j).map .Chunk

/-- A console diagnostic emitted by `parse_chunk` on its failure path
(the `println!` of the serde error together with the raw JSON). -/
inductive DecodeDiagnostic where
  | unknownShape : Json → DecodeDiagnostic

/-- `parse_chunk` of src/main.rs, with its console output made explicit.
`none` in the first component models a panic (the process aborts): the
`let Value::Object(_) = item else { panic!(..) }` guard for non-objects,
and the `.unwrap()` after the diagnostic `println!` when the value
matches neither shape. -/
def parse_chunkTrace (item : Json) :
    Option (Except GenerateContentResponseError GenerateContentResponseChunk)
      × List DecodeDiagnostic :=
  match item with
  | .obj _ =>
    match decodeResponse item with
    | some (.Chunk c) => (some (.ok c), [])
    | some (.Error e) => (some (.error e), [])
    | none => (none, [.unknownShape item])
  | _ => (none, [])

/-- `parse_chunk` of src/main.rs: the returned value only (`none` models
a panic). -/
def parse_chunk (item : Json) :
    Option (Except GenerateContentResponseError GenerateContentResponseChunk) :=
  (parse_chunkTrace item).1

/-- Concatenation of a list of strings (Rust's `collect::<String>()`). -/
def concatAll : List String → String
  | [] => ""
  | s :: rest => s ++ concatAll rest

/-- The text-extraction pipeline of the stream loop in src/main.rs
(lines 57-71): keep candidates with content, map every part to its text
when it is the `Text` variant, drop the rest, and concatenate. -/
def chunkText (chunk : GenerateContentResponseChunk) : String :=
  concatAll
    (((chunk.candidates.filterMap fun candidate =>
        match candidate.content with
        | some content => some content
        | _ => none).flatMap fun content =>
        content.parts.map fun part =>
          match part with
          | .Text text => some text
          | _ => none).filterMap id)

/-- The mutable state of the stream loop in `main`: the raw transcript
`output`, the text printed so far, and the service errors printed so far. -/
structure LoopState where
  output : List Json
  text : String
  errors : List GenerateContentResponseError

/-- The state at loop entry. -/
def initState : LoopState := ⟨[], "", []⟩

/-- One iteration of the stream loop: push the raw item, then decode;
a chunk's text is printed (appended to `text`), an error is printed
(appended to `errors`), and a decode panic aborts (second component
`true`). -/
def step (st : LoopState) (item : Json) : LoopState × Bool :=
  let st1 : LoopState := { st with output := st.output ++ [item] }
  match parse_chunk item with
  | some (.ok chunk) => ({ st1 with text := st1.text ++ chunkText chunk }, false)
  | some (.error e) => ({ st1 with errors := st1.errors ++ [e] }, false)
  | none => (st1, true)

/-- What the transport hands the loop on each `try_next`: an item, or a
transport-level fault (`Err(_)`), which makes the `while let Ok(Some(..))`
condition fail. -/
inductive StreamEvent where
  | item : Json → StreamEvent
  | transportFault : StreamEvent

/-- The whole `while let Ok(Some(item)) = stream.try_next().await` loop:
stops normally at end of stream or at a transport fault, aborts (second
component `true`) if an iteration panics. -/
def consume : List StreamEvent → LoopState → LoopState × Bool
  | [], st => (st, false)
  | .transportFault :: _, st => (st, false)
  | .item j :: rest, st =>
    match step st j with
    | (st1, true) => (st1, true)
    | (st1, false) => consume rest st1

/-- The in-memory JSON record materialized by `write_log` of src/main.rs
(the file write itself is an external concern). -/
def write_log (model : String) (input : Json) (output : List Json) : Json :=
  .obj [("meta", .obj [("model", .str model)]),
        ("request", input),
        ("response", .arr output)]

/-- `main` after the request is sent: consume the stream and, unless an
iteration panicked, write the log and return success (`some` record). -/
def mainRun (model : String) (request : Json) (events : List StreamEvent) :
    Option Json :=
  match consume events initState with
  | (_, true) => none
  | (st, false) => some (write_log model request st.output)

/-- From the spec's words, for refinement: the text one part contributes —
its string when it is the `Text` variant, nothing otherwise. -/
def specPartText : Part → String
  | .Text t => t
  | .Other _ => ""

/-- From the spec's words, for refinement: the text one candidate
contributes — every `Text` part of its content, in order, or nothing when
the content is absent. -/
def specCandidateText (c : Candidate) : String :=
  match c.content with
  | some content => concatAll (content.parts.map specPartText)
  | none => ""

/-- From the spec's words, for refinement: the text of a chunk is the
concatenation of the text of its candidates, in listed order. -/
def specChunkText (c : GenerateContentResponseChunk) : String :=
  concatAll (c.candidates.map specCandidateText)

/-- From the spec's words, for refinement: the text one raw item
contributes — a chunk's text, nothing for an error item. -/
def specItemText (item : Json) : String :=
  match parse_chunk item with
  | some (.ok chunk) => specChunkText chunk
  | _ => ""

/-- From the spec's words, for refinement: the concatenation, in arrival
order, of the text contributed by every item of a stream. -/
def specStreamText (items : List Json) : String :=
  concatAll (items.map specItemText)

theorem concatAll_append (l1 l2 : List String) :
    concatAll (l1 ++ l2) = concatAll l1 ++ concatAll l2 := by
  induction l1 with
  | nil => simp [concatAll, String.empty_append]
  | cons s rest ih => simp [concatAll, ih, String.append_assoc]

theorem concat_part_texts (ps : List Part) :
    concatAll ((ps.map fun part =>
      match part with
      | Part.Text text => some text
      | _ => none).filterMap id) = concatAll (ps.map specPartText) := by
  rw [List.filterMap_map]
  simp only [Function.id_comp]
  induction ps with
  | nil => rfl
  | cons p rest ih =>
    cases p with
    | Text t => simp [concatAll, List.filterMap_cons, ih, specPartText]
    | Other j =>
      simp [concatAll, List.filterMap_cons, ih, specPartText, String.empty_append]

/-- The loop's text-extraction pipeline computes exactly the spec-side
chunk text. -/
theorem chunkText_eq_spec (c : GenerateContentResponseChunk) :
    chunkText c = specChunkText c := by
  obtain ⟨cands, pf⟩ := c
  simp only [chunkText, specChunkText]
  induction cands with
  | nil => rfl
  | cons cand rest ih =>
    cases hc : cand.content with
    | none =>
      simp only [List.filterMap_cons, List.map_cons, hc, concatAll]
      rw [ih]
      simp [specCandidateText, hc, String.empty_append]
    | some content =>
      simp only [List.filterMap_cons, List.map_cons, hc, List.flatMap_cons,
        List.filterMap_append, concatAll_append, concatAll]
      rw [ih, concat_part_texts]
      simp [specCandidateText, hc]

/-- One loop iteration from an arbitrary state is the iteration from the
initial state with the prior state's accumulations prepended. -/
theorem step_shift (st : LoopState) (j : Json) :
    step st j = (⟨st.output ++ (step initState j).1.output,
                  st.text ++ (step initState j).1.text,
                  st.errors ++ (step initState j).1.errors⟩,
                 (step initState j).2) := by
  obtain ⟨o, t, e⟩ := st
  simp only [step, initState]
  cases h : parse_chunk j with
  | none => simp [String.append_empty]
  | some r =>
    cases r with
    | ok chunk => simp [String.empty_append, String.append_empty]
    | error err => simp [String.append_empty]

/-- Consuming a stream from an arbitrary state is consuming it from the
initial state with the prior state's accumulations prepended. -/
theorem consume_shift (evs : List StreamEvent) (st : LoopState) :
    consume evs st = (⟨st.output ++ (consume evs initState).1.output,
                      st.text ++ (consume evs initState).1.text,
                      st.errors ++ (consume evs initState).1.errors⟩,
                     (consume evs initState).2) := by
  induction evs generalizing st with
  | nil =>
    obtain ⟨o, t, e⟩ := st
    simp [consume, initState, String.append_empty]
  | cons ev rest ih =>
    cases ev with
    | transportFault =>
      obtain ⟨o, t, e⟩ := st
      simp [consume, initState, String.append_empty]
    | item j =>
      rcases hstep : step initState j with ⟨s0, b⟩
      simp only [consume, step_shift st j, hstep]
      cases b with
      | true => simp
      | false =>
        simp only []
        rw [ih s0, ih]
        simp [initState, List.append_assoc, String.append_assoc]

/-- The service errors the loop prints, in arrival order. -/
def streamErrors (items : List Json) : List GenerateContentResponseError :=
  items.flatMap fun it =>
    match parse_chunk it with
    | some (.error e) => [e]
    | _ => []

theorem step_init_ok {it : Json} {chunk : GenerateContentResponseChunk}
    (hp : parse_chunk it = some (.ok chunk)) :
    step initState it = (⟨[it], chunkText chunk, []⟩, false) := by
  simp [step, initState, hp, String.empty_append]

theorem step_init_err {it : Json} {err : GenerateContentResponseError}
    (hp : parse_chunk it = some (.error err)) :
    step initState it = (⟨[it], "", [err]⟩, false) := by
  simp [step, initState, hp]

theorem step_init_panic {it : Json} (hp : parse_chunk it = none) :
    step initState it = (⟨[it], "", []⟩, true) := by
  simp [step, initState, hp]

/-- Full characterization of the loop on a stream of items none of which
makes `parse_chunk` panic: every item is recorded in order, the text is
the spec-side concatenation, the errors are the error items in order, and
the loop does not abort. -/
theorem consume_master (items : List Json)
    (h : ∀ it ∈ items, parse_chunk it ≠ none) :
    consume (items.map StreamEvent.item) initState =
      (⟨items, specStreamText items, streamErrors items⟩, false) := by
  induction items with
  | nil => rfl
  | cons it rest ih =>
    have hit := h it (List.mem_cons_self it rest)
    have hrest := ih fun x hx => h x (List.mem_cons_of_mem _ hx)
    rcases hp : parse_chunk it with _ | r
    · exact absurd hp hit
    cases r with
    | ok chunk =>
      simp only [List.map_cons, consume, step_init_ok hp]
      rw [consume_shift, hrest]
      simp [specStreamText, streamErrors, specItemText, hp, concatAll,
        chunkText_eq_spec, List.flatMap_cons]
    | error err =>
      simp only [List.map_cons, consume, step_init_err hp]
      rw [consume_shift, hrest]
      simp [specStreamText, streamErrors, specItemText, hp, concatAll,
        List.flatMap_cons, String.empty_append]

/- Concrete wire fixtures used by witnesses and counterexamples. -/

/-- A chunk item with a single candidate carrying one text part. -/
def chunkItem (s : String) : Json :=
  .obj [("candidates", .arr [.obj [
    ("content", .obj [("parts", .arr [.obj [("text", .str s)]]),
                      ("role", .str "model")]),
    ("index", .num 0)]])]

/-- The overloaded-service error item of the spec's scenario 2. -/
def errorItem503 : Json :=
  .obj [("error", .obj [("code", .num 503),
    ("message", .str "The model is overloaded. Please try again later."),
    ("status", .str "UNAVAILABLE")])]

/-- The decoded form of `errorItem503`. -/
def err503 : GenerateContentResponseError :=
  ⟨⟨503, "The model is overloaded. Please try again later.", "UNAVAILABLE"⟩⟩

/-- A chunk item whose only candidate has a blocking finish reason and no
content. -/
def blockedItem (fr : String) : Json :=
  .obj [("candidates", .arr [.obj [("finishReason", .str fr),
    ("index", .num 0)]])]

/-- An object satisfying both wire shapes at once: a well-formed `error`
object next to a `candidates` array. -/
def bothShapesItem : Json :=
  .obj [("error", .obj [("code", .num 1), ("message", .str "m"),
    ("status", .str "s")]),
        ("candidates", .arr [])]

/-- A stream that reached some state without aborting reaches the same
state when a transport fault (and anything after it) is appended: the
`while let Ok(Some(..))` condition fails there and the loop exits. -/
theorem consume_fault_append (evs rest : List StreamEvent)
    (st st1 : LoopState) (h : consume evs st = (st1, false)) :
    consume (evs ++ StreamEvent.transportFault :: rest) st = (st1, false) := by
  induction evs generalizing st with
  | nil =>
    simp only [consume] at h
    simp only [List.nil_append, consume]
    exact h ▸ rfl
  | cons ev tail ih =>
    cases ev with
    | transportFault =>
      simpa [consume] using h
    | item j =>
      simp only [consume, List.cons_append] at h ⊢
      rcases hstep : step st j with ⟨s2, b⟩
      rw [hstep] at h
      cases b with
      | false => exact ih _ h
      | true => simp at h

/-- A three-item stream (chunk, service error, chunk) used as witness data. -/
def wItems : List Json := [chunkItem "ab", errorItem503, chunkItem "cd"]

/-- C1: for every well-formed stream of items (none makes the decoder
panic), the loop finishes without aborting and the final accumulated text
equals the concatenation, in arrival order, of every Text part of every
Content of every Candidate of every Chunk item, skipping Error items and
content-less candidates, with no separators inserted. -/
theorem stream_text_is_ordered_concat (items : List Json)
    (h : ∀ it ∈ items, parse_chunk it ≠ none) :
    (consume (items.map StreamEvent.item) initState).2 = false ∧
    (consume (items.map StreamEvent.item) initState).1.text =
      specStreamText items := by
  rw [consume_master items h]
  exact ⟨rfl, rfl⟩

theorem stream_text_is_ordered_concat_witness :
    ((consume (wItems.map StreamEvent.item) initState).2 = false ∧
     (consume (wItems.map StreamEvent.item) initState).1.text =
       specStreamText wItems) ∧
    specStreamText wItems = "abcd" :=
  ⟨stream_text_is_ordered_concat wItems (by
      intro it hit
      simp only [wItems, List.mem_cons, List.not_mem_nil, or_false] at hit
      rcases hit with h | h | h <;> subst h <;>
        exact Option.ne_none_iff_isSome.mpr rfl),
   rfl⟩

/-- C2: the claim says decoding a non-object value, or an object matching
neither shape, returns a failure value carrying the raw input and never
panics.  The code panics instead: `parse_chunk` hits the `let-else panic`
on a non-object, and on an unknown-shape object it prints a diagnostic
and unwraps; both abort (modelled as `none`), so no failure value is ever
returned to the caller. -/
theorem parse_chunk_panics_on_malformed :
    parse_chunk (Json.num 42) = none ∧
    parse_chunk (Json.obj [("foo", Json.num 1)]) = none ∧
    parse_chunkTrace (Json.obj [("foo", Json.num 1)]) =
      (none, [.unknownShape (Json.obj [("foo", Json.num 1)])]) :=
  ⟨rfl, rfl, rfl⟩

/-- C3: an Error item followed by further items does not stop the loop:
the accumulated text and abort flag are the same as for the stream
without the leading error, the error item is recorded first, and the
service error is surfaced first. -/
theorem error_item_then_continue (e : Json)
    (err : GenerateContentResponseError)
    (hp : parse_chunk e = some (.error err)) (rest : List Json) :
    (consume ((e :: rest).map StreamEvent.item) initState).2 =
      (consume (rest.map StreamEvent.item) initState).2 ∧
    (consume ((e :: rest).map StreamEvent.item) initState).1.text =
      (consume (rest.map StreamEvent.item) initState).1.text ∧
    (consume ((e :: rest).map StreamEvent.item) initState).1.output =
      e :: (consume (rest.map StreamEvent.item) initState).1.output ∧
    (consume ((e :: rest).map StreamEvent.item) initState).1.errors =
      err :: (consume (rest.map StreamEvent.item) initState).1.errors := by
  simp only [List.map_cons, consume, step_init_err hp]
  rw [consume_shift]
  simp [String.empty_append]

theorem error_item_then_continue_witness :
    ((consume ((errorItem503 :: [chunkItem "xy"]).map StreamEvent.item)
        initState).2 =
      (consume ([chunkItem "xy"].map StreamEvent.item) initState).2 ∧
     (consume ((errorItem503 :: [chunkItem "xy"]).map StreamEvent.item)
        initState).1.text =
      (consume ([chunkItem "xy"].map StreamEvent.item) initState).1.text ∧
     (consume ((errorItem503 :: [chunkItem "xy"]).map StreamEvent.item)
        initState).1.output =
      errorItem503 ::
        (consume ([chunkItem "xy"].map StreamEvent.item) initState).1.output ∧
     (consume ((errorItem503 :: [chunkItem "xy"]).map StreamEvent.item)
        initState).1.errors =
      err503 ::
        (consume ([chunkItem "xy"].map StreamEvent.item) initState).1.errors) ∧
    (consume ([chunkItem "xy"].map StreamEvent.item) initState).1.text = "xy" :=
  ⟨error_item_then_continue errorItem503 err503 rfl [chunkItem "xy"], rfl⟩

/-- C4: a chunk whose only candidate has a blocking finish reason (any
string, e.g. SAFETY or RECITATION) and no content field decodes
successfully as a Chunk — not a decode failure — and an iteration on it
leaves the accumulated text unchanged and does not abort. -/
theorem blocked_candidate_contributes_empty (fr : String) (st : LoopState) :
    parse_chunk (blockedItem fr) =
      some (.ok ⟨[⟨0, none, some fr, [], none⟩], none⟩) ∧
    chunkText ⟨[⟨0, none, some fr, [], none⟩], none⟩ = "" ∧
    (step st (blockedItem fr)).1.text = st.text ∧
    (step st (blockedItem fr)).2 = false := by
  have h : parse_chunk (blockedItem fr) =
      some (.ok ⟨[⟨0, none, some fr, [], none⟩], none⟩) := rfl
  refine ⟨h, rfl, ?_, ?_⟩ <;>
    simp [step, h, chunkText, concatAll, String.append_empty]

/-- C5 counterexample: the claim says no object decodes successfully as
both shapes; but an object carrying both a well-formed error object and a
candidates array satisfies both shape decoders, and the union decoder
resolves it as Error (the Error shape is tried first). -/
theorem shape_exclusivity_counterexample :
    (decodeErrorShape bothShapesItem).isSome = true ∧
    (decodeChunkShape bothShapesItem).isSome = true ∧
    decodeResponse bothShapesItem = some (.Error ⟨⟨1, "m", "s"⟩⟩) :=
  ⟨rfl, rfl, rfl⟩

/-- C5 amended: the union decoder yields at most one shape per item by
priority — a value matching the Error shape decodes as Error, a value
matching only the Chunk shape decodes as Chunk, and no value decodes as
both at once. -/
theorem shape_priority_resolution (j : Json) :
    (∀ e, decodeErrorShape j = some e →
      decodeResponse j = some (.Error e)) ∧
    (∀ c, decodeErrorShape j = none → decodeChunkShape j = some c →
      decodeResponse j = some (.Chunk c)) ∧
    (∀ e c, ¬(decodeResponse j = some (.Error e) ∧
              decodeResponse j = some (.Chunk c))) := by
  refine ⟨?_, ?_, ?_⟩
  · intro e he; simp [decodeResponse, he]
  · intro c he hc; simp [decodeResponse, he, hc]
  · rintro e c ⟨h1, h2⟩
    rw [h1] at h2
    simp at h2

theorem shape_priority_resolution_witness :
    decodeResponse bothShapesItem =
      some (.Error ⟨⟨1, "m", "s"⟩⟩) ∧
    decodeResponse (chunkItem "ab") =
      some (.Chunk ⟨[⟨0, some ⟨some "model", [.Text "ab"]⟩, none, [], none⟩],
        none⟩) :=
  ⟨(shape_priority_resolution bothShapesItem).1 ⟨⟨1, "m", "s"⟩⟩ rfl,
   (shape_priority_resolution (chunkItem "ab")).2.1
     ⟨[⟨0, some ⟨some "model", [.Text "ab"]⟩, none, [], none⟩], none⟩ rfl rfl⟩

/-- C6: on a stream of items none of which makes the decoder panic, every
raw item — chunk or error alike — is recorded in the transcript in
arrival order, and `write_log` produces the record with `meta.model`, the
request, and the raw items in arrival order. -/
theorem transcript_records_all_items (model : String) (request : Json)
    (items : List Json) (h : ∀ it ∈ items, parse_chunk it ≠ none) :
    (consume (items.map StreamEvent.item) initState).1.output = items ∧
    write_log model request
        (consume (items.map StreamEvent.item) initState).1.output =
      .obj [("meta", .obj [("model", .str model)]),
            ("request", request),
            ("response", .arr items)] := by
  rw [consume_master items h]
  exact ⟨rfl, rfl⟩

theorem transcript_records_all_items_witness :
    (consume (wItems.map StreamEvent.item) initState).1.output = wItems ∧
    write_log "gemini-pro" (Json.str "req")
        (consume (wItems.map StreamEvent.item) initState).1.output =
      .obj [("meta", .obj [("model", .str "gemini-pro")]),
            ("request", Json.str "req"),
            ("response", .arr wItems)] :=
  transcript_records_all_items "gemini-pro" (Json.str "req") wItems (by
    intro it hit
    simp only [wItems, List.mem_cons, List.not_mem_nil, or_false] at hit
    rcases hit with h | h | h <;> subst h <;>
      exact Option.ne_none_iff_isSome.mpr rfl)

/-- C7: the overloaded-service item decodes as the Error shape with code
503 and status UNAVAILABLE; consuming it alone leaves the accumulated
text empty, records the raw item, surfaces the service error, and does
not abort; and an iteration on it from any state leaves the accumulated
text and all previously accumulated state intact. -/
theorem overloaded_error_item_surfaced :
    parse_chunk errorItem503 = some (.error err503) ∧
    err503.error.code = 503 ∧
    err503.error.status = "UNAVAILABLE" ∧
    consume [StreamEvent.item errorItem503] initState =
      (⟨[errorItem503], "", [err503]⟩, false) ∧
    (∀ st : LoopState, step st errorItem503 =
      ({ st with output := st.output ++ [errorItem503],
                 errors := st.errors ++ [err503] }, false)) := by
  refine ⟨rfl, rfl, rfl, rfl, ?_⟩
  intro st
  simp [step, show parse_chunk errorItem503 = some (.error err503) from rfl]

/-- C8 counterexample: the claim says decode is side-effect free, but on
an object matching neither shape `parse_chunk` prints a diagnostic (the
serde error and the raw JSON) to the console before aborting. -/
theorem decode_prints_on_unknown_shape :
    (parse_chunkTrace (Json.obj [("bar", Json.num 2)])).2 =
      [.unknownShape (Json.obj [("bar", Json.num 2)])] ∧
    (parse_chunkTrace (Json.obj [("bar", Json.num 2)])).2 ≠ [] :=
  ⟨rfl, by
    rw [show (parse_chunkTrace (Json.obj [("bar", Json.num 2)])).2 =
      [.unknownShape (Json.obj [("bar", Json.num 2)])] from rfl]
    simp⟩

/-- C8 amended: decoding is deterministic — equal raw values yield
structurally identical outcomes, console output included — and it is
side-effect free on every input it decodes to a result; only the
unknown-shape abort path emits console output. -/
theorem decode_deterministic_and_pure_on_success :
    (∀ j1 j2 : Json, j1 = j2 → parse_chunkTrace j1 = parse_chunkTrace j2) ∧
    (∀ j r, parse_chunk j = some r → (parse_chunkTrace j).2 = []) := by
  refine ⟨fun j1 j2 h => h ▸ rfl, ?_⟩
  intro j r h
  unfold parse_chunk at h
  rcases j with _ | b | n | s | a | fields
  all_goals simp only [parse_chunkTrace] at h ⊢
  rcases hd : decodeResponse (.obj fields) with _ | re
  · rw [hd] at h
    exact absurd h (by simp)
  · cases re <;> rfl

theorem decode_deterministic_witness :
    parse_chunkTrace errorItem503 = parse_chunkTrace errorItem503 ∧
    (parse_chunkTrace errorItem503).2 = [] :=
  ⟨decode_deterministic_and_pure_on_success.1 errorItem503 errorItem503 rfl,
   decode_deterministic_and_pure_on_success.2 errorItem503
     (Except.error err503) rfl⟩

/-- C9: the text of a chunk is the concatenation of its candidates'
texts in candidates-array order, and the numeric index field of the
candidates has no effect: rewriting every index by an arbitrary function
leaves the extracted text unchanged. -/
theorem candidate_index_never_read (c : GenerateContentResponseChunk)
    (f : Int → Int) :
    chunkText { c with candidates := c.candidates.map fun cand =>
      { cand with index := f cand.index } } = chunkText c ∧
    chunkText c = concatAll (c.candidates.map specCandidateText) := by
  constructor
  · simp only [chunkText, List.filterMap_map]
    rfl
  · rw [chunkText_eq_spec]
    rfl

/-- C10: when the transport yields a fault, the loop exits with exactly
the state accumulated so far (the fault itself is neither recorded nor
surfaced, and everything after it is ignored), `write_log` is still
invoked on the items recorded so far, and `main` returns success. -/
theorem transport_fault_finalizes (model : String) (request : Json)
    (evs rest : List StreamEvent) (st1 : LoopState)
    (h : consume evs initState = (st1, false)) :
    consume (evs ++ StreamEvent.transportFault :: rest) initState =
      (st1, false) ∧
    mainRun model request (evs ++ StreamEvent.transportFault :: rest) =
      some (write_log model request st1.output) := by
  have hc := consume_fault_append evs rest initState st1 h
  exact ⟨hc, by simp [mainRun, hc]⟩

theorem transport_fault_finalizes_witness :
    (consume ([StreamEvent.item (chunkItem "ab")] ++
        StreamEvent.transportFault :: [StreamEvent.item (chunkItem "cd")])
        initState =
      (⟨[chunkItem "ab"], "ab", []⟩, false) ∧
     mainRun "gemini-pro" (Json.str "req")
        ([StreamEvent.item (chunkItem "ab")] ++
          StreamEvent.transportFault :: [StreamEvent.item (chunkItem "cd")]) =
      some (write_log "gemini-pro" (Json.str "req")
        (LoopState.mk [chunkItem "ab"] "ab" []).output)) :=
  transport_fault_finalizes "gemini-pro" (Json.str "req")
    [StreamEvent.item (chunkItem "ab")] [StreamEvent.item (chunkItem "cd")]
    ⟨[chunkItem "ab"], "ab", []⟩ rfl

end Gemdni
